import Mathlib

/-!
# PMX process supervisor: a shallow embedding of `pmx.go`

The Go program keeps three JSON documents under a fixed working directory
(definitions, running, stopped) and launches, probes and kills operating
system processes.  The embedding threads an explicit `World` through every
function that touches the disk or the process table:

* each document is `absent`, `unreadable` or `holds` a mapping;
* Go maps are association lists with unique keys (`AList`), so that a
  `range` loop visits every key once, in the order of the list;
* the outcomes the operating system chooses (whether a write fails, whether
  a log file opens, which process id a launch yields, whether a kill is
  refused, whether a terminated process is waited for) are scripts and tables
  carried by the `World`;
* Go's `(value, error)` results become `Except String _` or `Option String`
  paired with the next `World`.

Every function runs alone: no other actor touches the documents or the
process table between two steps of a call.
-/

namespace PMX

/-! ## Data model -/

/-- Working directory of the service, `SERVICE_WORKING_DIR` in the source. -/
def SERVICE_WORKING_DIR : String := "/var/lib/pmx"

/-- Process definition, `type PMXProcess struct`.  The two `*string` fields are
options: `none` is the nil pointer. -/
structure PMXProcess where
  Name : String
  Cmd : String
  Args : List String
  Stdout : Option String
  Stderr : Option String
  AutoRestart : Bool
deriving DecidableEq, Repr

/-- Go `map[string]V`: an association list whose keys are pairwise distinct. -/
abbrev GoMap (V : Type) : Type := AList (fun _ : String => V)

/-- Registry document, `type PMXProcessLog map[string]PMXProcess`. -/
abbrev PMXProcessLog : Type := GoMap PMXProcess

/-- Running table, `type PMXRunningProcessLog map[string]string`. -/
abbrev PMXRunningProcessLog : Type := GoMap String

/-- Stopped table, `type PMXStoppedProcessLog map[string]bool`. -/
abbrev PMXStoppedProcessLog : Type := GoMap Bool

/-! ## The world: documents on disk, process table, environment outcomes -/

/-- State of one JSON document file.  `unreadable` covers a file that exists
but whose shared lock or JSON decoding fails (an empty file included);
`holds m` is a file whose content decodes to the JSON object `m`.  A file
holding the JSON value `null`, which decodes to a nil map, is not represented. -/
inductive Doc (α : Type) where
  | absent : Doc α
  | unreadable : Doc α
  | holds (m : α) : Doc α
deriving DecidableEq

/-- What one call of `writeJson` meets: success, a failing `os.OpenFile`
(the file is left as it was), or a failure after the file was opened with
`O_TRUNC` (lock, marshal or write error: the file is left empty). -/
inductive WriteOutcome where
  | ok
  | openFails
  | failsAfterTruncate
deriving DecidableEq, Repr

/-- World threaded through the program. -/
structure World where
  /-- Content of `pmx-log.json`. -/
  processLog : Doc PMXProcessLog
  /-- Content of `pmx-running-log.json`. -/
  runningLog : Doc PMXRunningProcessLog
  /-- Content of `pmx-stopped-log.json`. -/
  stoppedLog : Doc PMXStoppedProcessLog
  /-- Process ids of the processes that run. -/
  live : List Int
  /-- Process ids of terminated processes their parent has not waited for:
  they no longer run, but they keep their entry in the process table and
  still answer signals. -/
  zombies : List Int
  /-- Process ids whose parent does not wait for them, so that they stay in
  the process table once terminated.  This program never waits for a child it
  launches. -/
  unreaped : List Int
  /-- Process ids for which `Kill` returns an error. -/
  unkillable : List Int
  /-- Outcomes of the coming `writeJson` calls, in order; once exhausted,
  writes succeed. -/
  writes : List WriteOutcome
  /-- Outcomes of the coming `os.OpenFile` calls on log files (`true` is
  success); once exhausted, opens succeed. -/
  opens : List Bool
  /-- Outcomes of the coming `cmd.Start` calls: the new process id, or `none`
  for a failed launch; once exhausted, launches fail. -/
  starts : List (Option Int)
  /-- Every signal sent so far, oldest first: process id and signal number
  (0 for the probe, 9 for the kill). -/
  signals : List (Int × Nat)

/-- Handle on one of the three documents: how to read and replace its file
state in the world.  Plays the part of the `filepath` argument. -/
structure JsonFile (α : Type) where
  get : World → Doc α
  set : Doc α → World → World

/-- File `SERVICE_WORKING_DIR + "/pmx-log.json"`. -/
def PROCESS_LOG_FILEPATH : JsonFile PMXProcessLog :=
  ⟨fun w => w.processLog, fun d w => { w with processLog := d }⟩

/-- File `SERVICE_WORKING_DIR + "/pmx-running-log.json"`. -/
def RUNNING_PROCESS_LOG_FILEPATH : JsonFile PMXRunningProcessLog :=
  ⟨fun w => w.runningLog, fun d w => { w with runningLog := d }⟩

/-- File `SERVICE_WORKING_DIR + "/pmx-stopped-log.json"`. -/
def STOPPED_PROCESS_LOG_FILEPATH : JsonFile PMXStoppedProcessLog :=
  ⟨fun w => w.stoppedLog, fun d w => { w with stoppedLog := d }⟩

/-! ## State store -/

/-- Source `writeJson`: open with create and truncate, lock, marshal, write.
Returns the error, if any. -/
def writeJson {α : Type} (filepath : JsonFile α) (data : α) (w : World) :
    Option String × World :=
  let w1 : World := { w with writes := w.writes.tail }
  match w.writes.headD WriteOutcome.ok with
  | WriteOutcome.ok => (none, filepath.set (Doc.holds data) w1)
  | WriteOutcome.openFails => (some "failed to open file", w1)
  | WriteOutcome.failsAfterTruncate =>
      (some "file write error", filepath.set Doc.unreadable w1)

/-- Source `readJson`: open, shared lock, decode.  The callers decode into a
freshly made empty map, so the result is exactly the document's mapping. -/
def readJson {α : Type} (filepath : JsonFile α) (w : World) : Except String α :=
  match filepath.get w with
  | Doc.absent => Except.error "failed to open file"
  | Doc.unreadable => Except.error "json decode error"
  | Doc.holds m => Except.ok m

/-- Source `loadProcessLog`: read the Registry, then write it back. -/
def loadProcessLog (w : World) : Except String PMXProcessLog × World :=
  match readJson PROCESS_LOG_FILEPATH w with
  | Except.error e => (Except.error e, w)
  | Except.ok log =>
      match writeJson PROCESS_LOG_FILEPATH log w with
      | (some e, w1) => (Except.error e, w1)
      | (none, w1) => (Except.ok log, w1)

/-- Source `loadRunningProcessLog`: read the running table, then write it back. -/
def loadRunningProcessLog (w : World) : Except String PMXRunningProcessLog × World :=
  match readJson RUNNING_PROCESS_LOG_FILEPATH w with
  | Except.error e => (Except.error e, w)
  | Except.ok log =>
      match writeJson RUNNING_PROCESS_LOG_FILEPATH log w with
      | (some e, w1) => (Except.error e, w1)
      | (none, w1) => (Except.ok log, w1)

/-- Source `loadStoppedProcessLog`: read the stopped table, then write it back. -/
def loadStoppedProcessLog (w : World) : Except String PMXStoppedProcessLog × World :=
  match readJson STOPPED_PROCESS_LOG_FILEPATH w with
  | Except.error e => (Except.error e, w)
  | Except.ok log =>
      match writeJson STOPPED_PROCESS_LOG_FILEPATH log w with
      | (some e, w1) => (Except.error e, w1)
      | (none, w1) => (Except.ok log, w1)

/-! ## Numbers as text -/

/-- Error kinds of `strconv`: malformed text, or a value outside `int64`. -/
inductive NumError where
  | ErrMalformed
  | ErrRange
deriving DecidableEq, Repr

/-- Reads a run of ASCII decimal digits, most significant first. -/
def parseDigits : List Char → Nat → Option Nat
  | [], acc => some acc
  | c :: cs, acc =>
      if c.isDigit then parseDigits cs (acc * 10 + (c.toNat - 48)) else none

/-- Go `strconv.ParseInt(s, 10, 64)`: optional sign, at least one digit, only
digits; the value is 0 on malformed text and clamped on overflow. -/
def ParseInt (s : String) : Int × Option NumError :=
  match s.data with
  | [] => (0, some NumError.ErrMalformed)
  | c :: cs =>
      let neg : Bool := c == '-'
      let ds : List Char := if c == '+' || c == '-' then cs else c :: cs
      match ds with
      | [] => (0, some NumError.ErrMalformed)
      | d :: ds1 =>
          match parseDigits (d :: ds1) 0 with
          | none => (0, some NumError.ErrMalformed)
          | some un =>
              if neg then
                if un > 2 ^ 63 then (-(2 : Int) ^ 63, some NumError.ErrRange)
                else (-(un : Int), none)
              else
                if un ≥ 2 ^ 63 then ((2 : Int) ^ 63 - 1, some NumError.ErrRange)
                else ((un : Int), none)

/-- Go `strconv.Atoi`: same value and error as `ParseInt(s, 10, 0)` on a
64-bit platform. -/
def Atoi (s : String) : Int × Option NumError := ParseInt s

/-- Go `fmt.Sprintf("%d", pid)`. -/
def formatInt (pid : Int) : String := toString pid

/-! ## Operating system primitives -/

/-- Go `process.Signal(syscall.Signal(0))` on the handle `os.FindProcess`
returns for `pid`: `true` when no error is returned.  Go itself refuses the
ids 0 and -1; otherwise the signal is delivered exactly when the id is in the
process table, running or terminated and not yet waited for. -/
def signalZero (pid : Int) (w : World) : Bool × World :=
  (decide (pid ≠ 0 ∧ pid ≠ -1 ∧ (pid ∈ w.live ∨ pid ∈ w.zombies)),
    { w with signals := w.signals ++ [(pid, 0)] })

/-- Go `process.Kill()`: `true` when no error is returned.  The process then
no longer runs; when its parent does not wait for it, it stays in the process
table as a terminated process. -/
def kill (pid : Int) (w : World) : Bool × World :=
  let w1 : World := { w with signals := w.signals ++ [(pid, 9)] }
  if pid ∈ w.unkillable then (false, w1)
  else
    (true,
      { w1 with
        live := w1.live.filter (fun q => q ≠ pid),
        zombies :=
          if pid ∈ w1.live ∧ pid ∈ w1.unreaped then pid :: w1.zombies else w1.zombies })

/-- Go `os.OpenFile(path, O_CREATE|O_WRONLY|O_APPEND, 0666)` on a log file:
`true` when it succeeds. -/
def openLogFile (_path : String) (w : World) : Bool × World :=
  (w.opens.headD true, { w with opens := w.opens.tail })

/-- Go `exec.Command(cmd, args...)` followed by `cmd.Start()`: the process id
of the child, which runs from then on, or `none` when the launch fails.  The
program never calls `cmd.Wait`, so the child is one nobody waits for. -/
def cmdStart (_cmd : String) (_args : List String) (w : World) : Option Int × World :=
  let w1 : World := { w with starts := w.starts.tail }
  match w.starts.headD none with
  | none => (none, w1)
  | some pid =>
      (some pid, { w1 with live := pid :: w1.live, unreaped := pid :: w1.unreaped })

/-! ## Lifecycle manager -/

/-- Test `p == nil || len(*p) < 1` on an optional path. -/
def nilOrEmpty : Option String → Bool
  | none => true
  | some s => decide (s.utf8ByteSize < 1)

/-- Source `loadProcessLogFiles`: default the two log paths. -/
def loadProcessLogFiles (process : PMXProcess) : PMXProcess :=
  let process : PMXProcess :=
    if nilOrEmpty process.Stdout then
      { process with Stdout := some (SERVICE_WORKING_DIR ++ "/" ++ process.Name ++ ".out.log") }
    else process
  if nilOrEmpty process.Stderr then
    { process with Stderr := some (SERVICE_WORKING_DIR ++ "/" ++ process.Name ++ ".err.log") }
  else process

/-- Source `stopProcessId`.  `os.FindProcess` never fails on Unix, so its
error branch is not reached. -/
def stopProcessId (pid : String) (w : World) : Option String × World :=
  match ParseInt pid with
  | (_, some _) => (some "invalid syntax", w)
  | (pid_, none) =>
      match signalZero pid_ w with
      | (false, w1) => (none, w1)
      | (true, w1) =>
          match kill pid_ w1 with
          | (false, w2) => (some "failed to kill process", w2)
          | (true, w2) => (none, w2)

/-- Source `startProcess`. -/
def startProcess (process : PMXProcess) (w : World) : Except String Int × World :=
  let process := loadProcessLogFiles process
  match loadRunningProcessLog w with
  | (Except.error e, w1) => (Except.error e, w1)
  | (Except.ok runningLog, w1) =>
      let w2 : World :=
        match runningLog.lookup process.Name with
        | some pid => (stopProcessId pid w1).2
        | none => w1
      match loadProcessLog w2 with
      | (Except.error e, w3) => (Except.error e, w3)
      | (Except.ok processLog, w3) =>
          let outOpen : Bool × World :=
            if nilOrEmpty process.Stdout then (true, w3)
            else openLogFile (process.Stdout.getD "") w3
          if !outOpen.1 then (Except.error "failed to open stdout file", outOpen.2)
          else
            let errOpen : Bool × World :=
              if nilOrEmpty process.Stderr then (true, outOpen.2)
              else openLogFile (process.Stderr.getD "") outOpen.2
            if !errOpen.1 then (Except.error "failed to open stderr file", errOpen.2)
            else
              match cmdStart process.Cmd process.Args errOpen.2 with
              | (none, w4) => (Except.error "failed to start process", w4)
              | (some newPid, w4) =>
                  let processLog := processLog.insert process.Name process
                  let pid_ := formatInt newPid
                  let runningLog := runningLog.insert process.Name pid_
                  match writeJson PROCESS_LOG_FILEPATH processLog w4 with
                  | (some _, w5) =>
                      (Except.error "failed to update process log.", (stopProcessId pid_ w5).2)
                  | (none, w5) =>
                      match writeJson RUNNING_PROCESS_LOG_FILEPATH runningLog w5 with
                      | (some _, w6) =>
                          (Except.error "failed to update running log.",
                            (stopProcessId pid_ w6).2)
                      | (none, w6) => (Except.ok newPid, w6)

/-- Source `stopProcess`. -/
def stopProcess (process : PMXProcess) (w : World) : Option String × World :=
  match loadRunningProcessLog w with
  | (Except.error e, w1) => (some e, w1)
  | (Except.ok runningLog, w1) =>
      match loadStoppedProcessLog w1 with
      | (Except.error e, w2) => (some e, w2)
      | (Except.ok stoppedLog, w2) =>
          match runningLog.lookup process.Name with
          | none => (none, w2)
          | some pid =>
              match stopProcessId pid w2 with
              | (some _, w3) => (some "failed to kill process", w3)
              | (none, w3) =>
                  let stoppedLog := stoppedLog.insert process.Name true
                  match writeJson STOPPED_PROCESS_LOG_FILEPATH stoppedLog w3 with
                  | (some _, w4) => (some "failed to update stopped log.", w4)
                  | (none, w4) =>
                      let runningLog := runningLog.erase process.Name
                      match writeJson RUNNING_PROCESS_LOG_FILEPATH runningLog w4 with
                      | (some _, w5) => (some "failed to update running log.", w5)
                      | (none, w5) => (none, w5)

/-! ## Command surface -/

/-- Source `runLs`, as far as it touches the world: it loads the running table
and the Registry (each load writes the document back) and then prints a table;
the `ps` query and the printed rows leave the world as it is. -/
def runLs (w : World) : Option String × World :=
  match loadRunningProcessLog w with
  | (Except.error e, w1) => (some e, w1)
  | (Except.ok _, w1) =>
      match loadProcessLog w1 with
      | (Except.error e, w2) => (some e, w2)
      | (Except.ok _, w2) => (none, w2)

/-- Body of the loop `for _, processName := range args` of `runRemove`, with
the two in-memory maps of that function.  The result carries the error of an
early `return`, if any. -/
def runRemoveLoop (runningLog : PMXRunningProcessLog) :
    List String → PMXProcessLog → World → Option String × World
  | [], _, w => (none, w)
  | processName :: rest, processLog, w =>
      match processLog.lookup processName with
      | none => runRemoveLoop runningLog rest processLog w
      | some process =>
          let stopped : Option String × World :=
            match runningLog.lookup processName with
            | some _ => stopProcess process w
            | none => (none, w)
          match stopped with
          | (some e, w1) => (some e, w1)
          | (none, w1) =>
              let processLog := processLog.erase process.Name
              match writeJson PROCESS_LOG_FILEPATH processLog w1 with
              | (some _, w2) => (some "failed to update process log.", w2)
              | (none, w2) => runRemoveLoop runningLog rest processLog w2

/-- Source `runRemove`. -/
def runRemove (args : List String) (w : World) : Option String × World :=
  match loadRunningProcessLog w with
  | (Except.error e, w1) => (some e, w1)
  | (Except.ok runningLog, w1) =>
      match loadProcessLog w1 with
      | (Except.error e, w2) => (some e, w2)
      | (Except.ok processLog, w2) =>
          match runRemoveLoop runningLog args processLog w2 with
          | (some e, w3) => (some e, w3)
          | (none, w3) => (none, (runLs w3).2)

/-! ## Supervisor monitor -/

/-- Body of the loop `for name, config := range processLog` of `runMonitor`
for one entry, with the two snapshots read at the top of the iteration.
Returns whether `startProcess(config)` was invoked, and the world afterwards. -/
def monitorEntry (runningLog : PMXRunningProcessLog) (stoppedLog : PMXStoppedProcessLog)
    (name : String) (config : PMXProcess) (w : World) : Bool × World :=
  if !config.AutoRestart then (false, w)
  else
    let stopped : Bool := (stoppedLog.lookup name).getD false
    if stopped then (false, w)
    else
      let probe : Bool × World :=
        match runningLog.lookup name with
        | none => (true, w)
        | some pidStr =>
            let pid := (Atoi pidStr).1
            let alive := signalZero pid w
            (!alive.1, alive.2)
      let shouldRestart := probe.1
      if shouldRestart then
        let started := startProcess config probe.2
        (true, started.2)
      else (false, probe.2)

/-- Loop `for name, config := range processLog` of `runMonitor`, over the
entries in the order the range visits them.  Returns the entries for which
`startProcess` was invoked, each with its key `name` and the definition
`config` passed to `startProcess`, in order of invocation. -/
def monitorLoop (runningLog : PMXRunningProcessLog) (stoppedLog : PMXStoppedProcessLog) :
    List (Sigma fun _ : String => PMXProcess) → World →
      List (Sigma fun _ : String => PMXProcess) × World
  | [], w => ([], w)
  | ⟨name, config⟩ :: rest, w =>
      let step := monitorEntry runningLog stoppedLog name config w
      let later := monitorLoop runningLog stoppedLog rest step.2
      (if step.1 then ⟨name, config⟩ :: later.1 else later.1, later.2)

/-- How one pass through the body of the `for` loop of `runMonitor` ends. -/
inductive MonitorOutcome where
  /-- Registry or running table could not be loaded: sleep, `continue`. -/
  | retry
  /-- Stopped table could not be loaded: `return err`. -/
  | fatal (e : String)
  /-- All three were loaded and the range loop ran; the entries for which
  `startProcess` was invoked. -/
  | swept (restarted : List (Sigma fun _ : String => PMXProcess))
deriving DecidableEq

/-- One iteration of the outer `for` loop of `runMonitor` (the sleeps are not
modelled). -/
def monitorIteration (w : World) : MonitorOutcome × World :=
  match loadProcessLog w with
  | (Except.error _, w1) => (MonitorOutcome.retry, w1)
  | (Except.ok processLog, w1) =>
      match loadRunningProcessLog w1 with
      | (Except.error _, w2) => (MonitorOutcome.retry, w2)
      | (Except.ok runningLog, w2) =>
          match loadStoppedProcessLog w2 with
          | (Except.error e, w3) => (MonitorOutcome.fatal e, w3)
          | (Except.ok stoppedLog, w3) =>
              let r := monitorLoop runningLog stoppedLog processLog.entries w3
              (MonitorOutcome.swept r.1, r.2)

/-! ## Control API -/

/-- One JSON object of a response, `map[string]any` with text values. -/
abbrev JsonObject : Type := List (String × String)

/-- Handler of `/stop` in `runServe`, given the `name` query parameter (empty
when absent).  Each `json.NewEncoder(res).Encode` appends one object to the
response body.  A failed Registry load is ignored by the handler and leaves a
nil map, in which no name is found. -/
def handleStop (processName : String) (w : World) : List JsonObject × World :=
  let loaded := loadProcessLog w
  let processLog : PMXProcessLog :=
    match loaded.1 with
    | Except.ok m => m
    | Except.error _ => ∅
  let w1 := loaded.2
  if processName ≠ "" then
    match processLog.lookup processName with
    | some entry =>
        let r := stopProcess entry w1
        let body : List JsonObject :=
          match r.1 with
          | some _ => [[("Error", "Unable to stop process.")]]
          | none => []
        (body ++ [[("Message", "Process stopped.")]], r.2)
    | none => ([[("Error", "Unknown process name.")]], w1)
  else ([[("Error", "Process name is required.")]], w1)

/-- Handler of `/start` in `runServe`, given the `name` query parameter. -/
def handleStart (processName : String) (w : World) : List JsonObject × World :=
  let loaded := loadProcessLog w
  let processLog : PMXProcessLog :=
    match loaded.1 with
    | Except.ok m => m
    | Except.error _ => ∅
  let w1 := loaded.2
  if processName ≠ "" then
    match processLog.lookup processName with
    | some entry =>
        let r := startProcess entry w1
        let body : List JsonObject :=
          match r.1 with
          | Except.error _ => [[("Error", "Unable to start process.")]]
          | Except.ok _ => []
        (body ++ [[("Message", "Process started.")]], r.2)
    | none => ([[("Error", "Unknown process name.")]], w1)
  else ([[("Error", "Process name is required.")]], w1)

/-! ## Concrete inputs -/

/-- Definition of the scenario of the specification, as an operator supplies
it: no log paths. -/
def web : PMXProcess :=
  { Name := "web", Cmd := "sleep", Args := ["100"], Stdout := none, Stderr := none,
    AutoRestart := true }

/-- Definition `web` as the Registry stores it, with the defaulted log paths. -/
def webStored : PMXProcess :=
  { Name := "web", Cmd := "sleep", Args := ["100"],
    Stdout := some "/var/lib/pmx/web.out.log", Stderr := some "/var/lib/pmx/web.err.log",
    AutoRestart := true }

/-- World with three empty documents, no live process and no failure ahead;
the next launch, if any, fails. -/
def quiet : World :=
  { processLog := Doc.holds ∅, runningLog := Doc.holds ∅, stoppedLog := Doc.holds ∅,
    live := [], zombies := [], unreaped := [], unkillable := [], writes := [], opens := [],
    starts := [], signals := [] }

/-- Registry holding `webStored` under the key `web`. -/
def webRegistry : PMXProcessLog := (∅ : PMXProcessLog).insert "web" webStored

/-- Running table recording `web` under pid 4242. -/
def webRunningTable : PMXRunningProcessLog := (∅ : PMXRunningProcessLog).insert "web" "4242"

/-- World before the first start of `web`: the launch will yield pid 4242. -/
def beforeStart : World := { quiet with starts := [some 4242] }

/-- World in which `web` is registered and runs as the live process 4242. -/
def webRunning : World :=
  { quiet with
    processLog := Doc.holds webRegistry,
    runningLog := Doc.holds webRunningTable,
    live := [4242] }

/-- World in which `web` is registered and was explicitly stopped; the next
launch will yield pid 5000. -/
def webStopped : World :=
  { quiet with
    processLog := Doc.holds webRegistry,
    stoppedLog := Doc.holds ((∅ : PMXStoppedProcessLog).insert "web" true),
    starts := [some 5000] }

/-- World of a fresh installation: the working directory exists and none of
the three documents does. -/
def freshInstall : World :=
  { quiet with
    processLog := Doc.absent, runningLog := Doc.absent, stoppedLog := Doc.absent,
    starts := [some 4242] }

/-- World in which `web` is registered and not running, and the next launch
fails (for instance because the command is not found). -/
def webLaunchFails : World := { quiet with processLog := Doc.holds webRegistry }

/-- World in which `web` runs as process 4242 and that process refuses the
kill signal. -/
def webUnkillable : World := { webRunning with unkillable := [4242] }

/-- World reached from `webStopped` by an explicit start of `web`, after which
the new process dies; the next launch would yield pid 6000. -/
def webRestartedThenDied : World :=
  { (startProcess webStored webStopped).2 with
    live := [], unreaped := [], starts := [some 6000] }

/-- Registry in which the key `api` holds a definition whose Name field is
`web`, as a hand-edited document can. -/
def mislabelledRegistry : PMXProcessLog := (∅ : PMXProcessLog).insert "api" webStored

/-- World with the mislabelled Registry, nothing running, no failure ahead. -/
def mislabelled : World := { quiet with processLog := Doc.holds mislabelledRegistry }

/-- World in which the Registry is readable and empty and the running
document does not decode. -/
def runningUnreadable : World := { quiet with runningLog := Doc.unreadable }

/-- World before the first start of `web` in which the two loads succeed and
the write of the Registry then fails; the launch yields pid 4242. -/
def registryWriteFails : World :=
  { quiet with
    starts := [some 4242],
    writes := [WriteOutcome.ok, WriteOutcome.ok, WriteOutcome.openFails] }

/-- Same as `registryWriteFails`, and process 4242 refuses the kill signal. -/
def killRefused : World := { registryWriteFails with unkillable := [4242] }

/-- World in which `web` is registered and runs as process 4242 while the
stopped document does not exist. -/
def stoppedMissing : World := { webRunning with stoppedLog := Doc.absent }

/-! ## Log-path defaulting -/

theorem utf8ByteSize_lt_one_iff (s : String) : s.utf8ByteSize < 1 ↔ s = "" := by
  cases s with
  | mk l =>
    cases l with
    | nil => simp [String.utf8ByteSize, String.utf8ByteSize.go]
    | cons c cs =>
      have hc := Char.utf8Size_pos c
      have hne : String.mk (c :: cs) ≠ "" := by
        intro h
        have := congrArg String.data h
        simp at this
      simp [String.utf8ByteSize, String.utf8ByteSize.go, hne]
      omega

theorem nilOrEmpty_iff (o : Option String) : nilOrEmpty o = true ↔ (o = none ∨ o = some "") := by
  cases o with
  | none => simp [nilOrEmpty]
  | some s =>
    have := utf8ByteSize_lt_one_iff s
    simp only [nilOrEmpty, decide_eq_true_eq, this]
    simp

theorem default_path_ne_empty (n sfx : String) : SERVICE_WORKING_DIR ++ "/" ++ n ++ sfx ≠ "" := by
  intro h
  have := congrArg String.data h
  simp [SERVICE_WORKING_DIR] at this

theorem nilOrEmpty_default (n sfx : String) :
    nilOrEmpty (some (SERVICE_WORKING_DIR ++ "/" ++ n ++ sfx)) = false := by
  have := default_path_ne_empty n sfx
  rw [Bool.eq_false_iff]
  intro h
  rw [nilOrEmpty_iff] at h
  simp [this] at h

theorem loadProcessLogFiles_eq (p : PMXProcess) :
    loadProcessLogFiles p =
      { Name := p.Name, Cmd := p.Cmd, Args := p.Args,
        Stdout := if nilOrEmpty p.Stdout then
            some (SERVICE_WORKING_DIR ++ "/" ++ p.Name ++ ".out.log") else p.Stdout,
        Stderr := if nilOrEmpty p.Stderr then
            some (SERVICE_WORKING_DIR ++ "/" ++ p.Name ++ ".err.log") else p.Stderr,
        AutoRestart := p.AutoRestart } := by
  unfold loadProcessLogFiles
  cases h1 : nilOrEmpty p.Stdout <;> cases h2 : nilOrEmpty p.Stderr <;> simp [h1, h2]

theorem nilOrEmpty_loadProcessLogFiles (p : PMXProcess) :
    nilOrEmpty (loadProcessLogFiles p).Stdout = false ∧
    nilOrEmpty (loadProcessLogFiles p).Stderr = false := by
  rw [loadProcessLogFiles_eq]
  constructor
  · cases h1 : nilOrEmpty p.Stdout
    · simp [h1]
    · simp [nilOrEmpty_default]
  · cases h2 : nilOrEmpty p.Stderr
    · simp [h2]
    · simp [nilOrEmpty_default]

/-! ## Lemmas on the state store and the primitives -/

theorem take_succ_ok {l : List WriteOutcome} {n : Nat}
    (h : ∀ o ∈ l.take (n + 1), o = WriteOutcome.ok) :
    l.headD WriteOutcome.ok = WriteOutcome.ok ∧ ∀ o ∈ l.tail.take n, o = WriteOutcome.ok := by
  cases l with
  | nil => simp
  | cons a t =>
    simp only [List.take_succ_cons, List.mem_cons, forall_eq_or_imp] at h
    exact ⟨by simpa using h.1, by simpa using h.2⟩

theorem take_ok_of_le {l : List WriteOutcome} {m n : Nat} (hmn : m ≤ n)
    (h : ∀ o ∈ l.take n, o = WriteOutcome.ok) : ∀ o ∈ l.take m, o = WriteOutcome.ok :=
  fun o ho => h o (List.take_subset_take_left _ hmn ho)

theorem take_tail_ok {l : List WriteOutcome} {n : Nat}
    (h : ∀ o ∈ l.take (n + 1), o = WriteOutcome.ok) :
    ∀ o ∈ l.tail.take n, o = WriteOutcome.ok :=
  (take_succ_ok h).2

theorem writeJson_ok {α : Type} (f : JsonFile α) (d : α) (w : World)
    (h : w.writes.headD WriteOutcome.ok = WriteOutcome.ok) :
    writeJson f d w = (none, f.set (Doc.holds d) { w with writes := w.writes.tail }) := by
  unfold writeJson
  simp only [h]

theorem loadProcessLog_ok (w : World) (m : PMXProcessLog)
    (hd : w.processLog = Doc.holds m)
    (h : w.writes.headD WriteOutcome.ok = WriteOutcome.ok) :
    loadProcessLog w = (Except.ok m, { w with writes := w.writes.tail }) := by
  unfold loadProcessLog readJson
  simp only [PROCESS_LOG_FILEPATH, hd, writeJson_ok _ _ _ h]

theorem loadRunningProcessLog_ok (w : World) (m : PMXRunningProcessLog)
    (hd : w.runningLog = Doc.holds m)
    (h : w.writes.headD WriteOutcome.ok = WriteOutcome.ok) :
    loadRunningProcessLog w = (Except.ok m, { w with writes := w.writes.tail }) := by
  unfold loadRunningProcessLog readJson
  simp only [RUNNING_PROCESS_LOG_FILEPATH, hd, writeJson_ok _ _ _ h]

theorem loadStoppedProcessLog_ok (w : World) (m : PMXStoppedProcessLog)
    (hd : w.stoppedLog = Doc.holds m)
    (h : w.writes.headD WriteOutcome.ok = WriteOutcome.ok) :
    loadStoppedProcessLog w = (Except.ok m, { w with writes := w.writes.tail }) := by
  unfold loadStoppedProcessLog readJson
  simp only [STOPPED_PROCESS_LOG_FILEPATH, hd, writeJson_ok _ _ _ h]

/-- Stopping by id touches only the process table and the signal log. -/
theorem stopProcessId_frame (pid : String) (w : World) :
    ∃ l z s, (stopProcessId pid w).2 = { w with live := l, zombies := z, signals := s } := by
  unfold stopProcessId
  rcases hp : ParseInt pid with ⟨v, _ | e⟩
  · simp only [signalZero, kill]
    cases decide (v ≠ 0 ∧ v ≠ -1 ∧ (v ∈ w.live ∨ v ∈ w.zombies))
    · exact ⟨_, _, _, rfl⟩
    · by_cases h2 : v ∈ w.unkillable
      · simp only [h2, if_true]
        exact ⟨_, _, _, rfl⟩
      · simp only [h2, if_false]
        exact ⟨_, _, _, rfl⟩
  · exact ⟨w.live, w.zombies, w.signals, rfl⟩

/-! ## Lemmas on start -/

theorem loadProcessLogFiles_Name (p : PMXProcess) : (loadProcessLogFiles p).Name = p.Name := by
  rw [loadProcessLogFiles_eq]

theorem opens_take_two {l : List Bool} (h : ∀ b ∈ l.take 2, b = true) :
    l.headD true = true ∧ l.tail.headD true = true := by
  rcases l with _ | ⟨a, _ | ⟨b, t⟩⟩ <;> simp_all

/-- Up to the launch: with both documents loaded, both log files opened and
the command started as `pid`, `startProcess` continues with the two writes in
a world where `pid` is live. -/
theorem startProcess_launched (process : PMXProcess) (w : World)
    (running : PMXRunningProcessLog) (registry : PMXProcessLog) (pid : Int)
    (hrun : w.runningLog = Doc.holds running)
    (hreg : w.processLog = Doc.holds registry)
    (hwrites : ∀ o ∈ w.writes.take 2, o = WriteOutcome.ok)
    (hopens : ∀ b ∈ w.opens.take 2, b = true)
    (hstart : w.starts.head? = some (some pid)) :
    ∃ l z s, startProcess process w =
      (match writeJson PROCESS_LOG_FILEPATH
          (registry.insert process.Name (loadProcessLogFiles process))
          { w with
            live := pid :: l, zombies := z, unreaped := pid :: w.unreaped, signals := s,
            writes := w.writes.tail.tail,
            opens := w.opens.tail.tail, starts := w.starts.tail } with
      | (some _, w5) =>
          (Except.error "failed to update process log.",
            (stopProcessId (formatInt pid) w5).2)
      | (none, w5) =>
          match writeJson RUNNING_PROCESS_LOG_FILEPATH
              (running.insert process.Name (formatInt pid)) w5 with
          | (some _, w6) =>
              (Except.error "failed to update running log.",
                (stopProcessId (formatInt pid) w6).2)
          | (none, w6) => (Except.ok pid, w6)) := by
  obtain ⟨hw1, hwrites⟩ := take_succ_ok hwrites
  obtain ⟨hw2, -⟩ := take_succ_ok hwrites
  obtain ⟨ho1, ho2⟩ := opens_take_two hopens
  obtain ⟨hn1, hn2⟩ := nilOrEmpty_loadProcessLogFiles process
  have hname := loadProcessLogFiles_Name process
  have hs : w.starts.headD none = some pid := by
    cases hq : w.starts with
    | nil => simp [hq] at hstart
    | cons a t => simpa [hq] using hstart
  unfold startProcess
  simp only [loadRunningProcessLog_ok w running hrun hw1]
  generalize hw2def : (match running.lookup (loadProcessLogFiles process).Name with
        | some pid => (stopProcessId pid { w with writes := w.writes.tail }).2
        | none => ({ w with writes := w.writes.tail } : World)) = w2
  obtain ⟨l, z, s, hw2eq⟩ : ∃ l z s,
      w2 = { w with writes := w.writes.tail, live := l, zombies := z, signals := s } := by
    rw [← hw2def]
    cases running.lookup (loadProcessLogFiles process).Name with
    | none => exact ⟨w.live, w.zombies, w.signals, rfl⟩
    | some q =>
      obtain ⟨l, z, s, h⟩ := stopProcessId_frame q { w with writes := w.writes.tail }
      exact ⟨l, z, s, h⟩
  subst hw2eq
  refine ⟨l, z, s, ?_⟩
  have hl := loadProcessLog_ok
    { w with writes := w.writes.tail, live := l, zombies := z, signals := s }
    registry hreg hw2
  rw [hl]
  simp only [hn1, hn2, openLogFile, ho1, ho2, cmdStart, hs, hname, Bool.false_eq_true,
    if_false, if_true, Bool.not_true, Bool.not_false]

/-- Successful start, with the world it leaves. -/
theorem startProcess_run (process : PMXProcess) (w : World)
    (running : PMXRunningProcessLog) (registry : PMXProcessLog) (pid : Int)
    (hrun : w.runningLog = Doc.holds running)
    (hreg : w.processLog = Doc.holds registry)
    (hwrites : ∀ o ∈ w.writes.take 4, o = WriteOutcome.ok)
    (hopens : ∀ b ∈ w.opens.take 2, b = true)
    (hstart : w.starts.head? = some (some pid)) :
    ∃ l z s, startProcess process w =
      (Except.ok pid,
        { w with
          processLog := Doc.holds (registry.insert process.Name (loadProcessLogFiles process)),
          runningLog := Doc.holds (running.insert process.Name (formatInt pid)),
          live := pid :: l, zombies := z, unreaped := pid :: w.unreaped, signals := s,
          writes := w.writes.tail.tail.tail.tail,
          opens := w.opens.tail.tail,
          starts := w.starts.tail }) := by
  obtain ⟨l, z, s, h⟩ := startProcess_launched process w running registry pid hrun hreg
    (take_ok_of_le (by decide) hwrites) hopens hstart
  obtain ⟨-, hw⟩ := take_succ_ok hwrites
  obtain ⟨-, hw⟩ := take_succ_ok hw
  obtain ⟨hw3, hw⟩ := take_succ_ok hw
  obtain ⟨hw4, -⟩ := take_succ_ok hw
  refine ⟨l, z, s, ?_⟩
  rw [h, writeJson_ok _ _ _ hw3]
  simp only [PROCESS_LOG_FILEPATH]
  rw [writeJson_ok _ _ _ hw4]
  simp only [RUNNING_PROCESS_LOG_FILEPATH]

/-- Whether stopping by id reports an error depends on the process table only. -/
theorem stopProcessId_fst_congr (pid : String) (w1 w2 : World)
    (hl : w1.live = w2.live) (hz : w1.zombies = w2.zombies)
    (hu : w1.unkillable = w2.unkillable) :
    (stopProcessId pid w1).1 = (stopProcessId pid w2).1 := by
  unfold stopProcessId
  rcases hp : ParseInt pid with ⟨v, _ | e⟩
  · simp only [signalZero, kill, hl, hz, hu]
    cases decide (v ≠ 0 ∧ v ≠ -1 ∧ (v ∈ w2.live ∨ v ∈ w2.zombies))
    · rfl
    · by_cases h2 : v ∈ w2.unkillable
      · simp only [h2, if_true]
      · simp only [h2, if_false]
  · rfl

theorem stopProcess_run (process : PMXProcess) (w : World)
    (running : PMXRunningProcessLog) (stopped : PMXStoppedProcessLog) (pid : String)
    (hrun : w.runningLog = Doc.holds running)
    (hstp : w.stoppedLog = Doc.holds stopped)
    (hpid : running.lookup process.Name = some pid)
    (hkill : (stopProcessId pid w).1 = none)
    (hwrites : ∀ o ∈ w.writes.take 4, o = WriteOutcome.ok) :
    ∃ l z s, stopProcess process w =
      (none,
        { w with
          stoppedLog := Doc.holds (stopped.insert process.Name true),
          runningLog := Doc.holds (running.erase process.Name),
          live := l, zombies := z, signals := s,
          writes := w.writes.tail.tail.tail.tail }) := by
  obtain ⟨hw1, hwrites⟩ := take_succ_ok hwrites
  obtain ⟨hw2, hwrites⟩ := take_succ_ok hwrites
  obtain ⟨hw3, hwrites⟩ := take_succ_ok hwrites
  obtain ⟨hw4, -⟩ := take_succ_ok hwrites
  unfold stopProcess
  simp only [loadRunningProcessLog_ok w running hrun hw1]
  have hl := loadStoppedProcessLog_ok { w with writes := w.writes.tail } stopped hstp hw2
  rw [hl]
  simp only [hpid]
  have hk : (stopProcessId pid { w with writes := w.writes.tail.tail }).1 = none := by
    rw [← hkill]
    exact stopProcessId_fst_congr pid _ _ rfl rfl rfl
  obtain ⟨l, z, s, hfr⟩ := stopProcessId_frame pid { w with writes := w.writes.tail.tail }
  have hpair : stopProcessId pid { w with writes := w.writes.tail.tail } =
      (none, { w with writes := w.writes.tail.tail, live := l, zombies := z, signals := s }) := by
    rw [← hfr, ← hk]
  refine ⟨l, z, s, ?_⟩
  rw [hpair]
  simp only []
  rw [writeJson_ok _ _ _ hw3]
  simp only [STOPPED_PROCESS_LOG_FILEPATH]
  rw [writeJson_ok _ _ _ hw4]
  simp only [RUNNING_PROCESS_LOG_FILEPATH]

theorem stopProcess_noop (process : PMXProcess) (w : World)
    (running : PMXRunningProcessLog) (stopped : PMXStoppedProcessLog)
    (hrun : w.runningLog = Doc.holds running)
    (hstp : w.stoppedLog = Doc.holds stopped)
    (hpid : running.lookup process.Name = none)
    (hwrites : ∀ o ∈ w.writes.take 2, o = WriteOutcome.ok) :
    stopProcess process w = (none, { w with writes := w.writes.tail.tail }) := by
  obtain ⟨hw1, hwrites⟩ := take_succ_ok hwrites
  obtain ⟨hw2, -⟩ := take_succ_ok hwrites
  unfold stopProcess
  simp only [loadRunningProcessLog_ok w running hrun hw1]
  have hl := loadStoppedProcessLog_ok { w with writes := w.writes.tail } stopped hstp hw2
  rw [hl]
  simp only [hpid]

/-! ## Decimal text of a process id reads back as that id -/

theorem digitChar_isDigit (d : Nat) (h : d < 10) :
    (Nat.digitChar d).isDigit = true ∧ (Nat.digitChar d).toNat - 48 = d := by
  interval_cases d <;> exact ⟨by decide, by decide⟩

theorem parseDigits_append_digit (xs : List Char) (d : Nat) (h : d < 10)
    (rest : List Char) (acc m k : Nat)
    (hxs : ∀ rest1 acc1, parseDigits (xs ++ rest1) acc1 = parseDigits rest1 (acc1 * 10 ^ k + m)) :
    parseDigits ((xs ++ [Nat.digitChar d]) ++ rest) acc
      = parseDigits rest (acc * 10 ^ (k + 1) + (m * 10 + d)) := by
  obtain ⟨h1, h2⟩ := digitChar_isDigit d h
  rw [List.append_assoc, hxs]
  simp only [List.singleton_append, parseDigits, h1, if_true, h2]
  congr 1
  ring

theorem toDigitsCore_spec (fuel : Nat) :
    ∀ (n : Nat) (ds : List Char), n < fuel →
      ∃ xs : List Char, ∃ k : Nat, Nat.toDigitsCore 10 fuel n ds = xs ++ ds ∧
        (∃ c cs, xs = c :: cs ∧ c.isDigit = true) ∧
        ∀ rest acc, parseDigits (xs ++ rest) acc = parseDigits rest (acc * 10 ^ k + n) := by
  induction fuel with
  | zero => intro n ds h; omega
  | succ fuel ih =>
    intro n ds hn
    have hd : n % 10 < 10 := Nat.mod_lt _ (by decide)
    obtain ⟨hd1, hd2⟩ := digitChar_isDigit (n % 10) hd
    by_cases h0 : n / 10 = 0
    · refine ⟨[Nat.digitChar (n % 10)], 1, ?_, ⟨_, _, rfl, hd1⟩, ?_⟩
      · simp [Nat.toDigitsCore, h0]
      · intro rest acc
        have hlt : n < 10 := by omega
        rw [Nat.mod_eq_of_lt hlt] at hd1 hd2
        rw [Nat.mod_eq_of_lt hlt]
        simp only [List.singleton_append, parseDigits, hd1, if_true, hd2, pow_one]
        rfl
    · have hlt : n / 10 < fuel := by omega
      obtain ⟨xs, k, hx, ⟨c, cs, hc, hcd⟩, hp⟩ := ih (n / 10) (Nat.digitChar (n % 10) :: ds) hlt
      refine ⟨xs ++ [Nat.digitChar (n % 10)], k + 1, ?_, ⟨c, cs ++ [Nat.digitChar (n % 10)], ?_, hcd⟩, ?_⟩
      · simp [Nat.toDigitsCore, h0, hx]
      · simp [hc]
      · intro rest acc
        rw [parseDigits_append_digit xs (n % 10) hd rest acc (n / 10) k hp]
        congr 2
        omega

theorem formatInt_data (n : Nat) : (formatInt (n : Int)).data = Nat.toDigits 10 n := rfl

/-- Reading back the decimal text of a non-negative 64-bit id gives the id. -/
theorem ParseInt_formatInt (pid : Int) (h0 : 0 ≤ pid) (h63 : pid < 2 ^ 63) :
    ParseInt (formatInt pid) = (pid, none) := by
  obtain ⟨n, rfl⟩ := Int.eq_ofNat_of_zero_le h0
  have hn : n < 2 ^ 63 := by exact_mod_cast h63
  obtain ⟨xs, k, hx, ⟨c, cs, hc, hcd⟩, hp⟩ := toDigitsCore_spec (n + 1) n [] (Nat.lt_succ_self n)
  have hdata : (formatInt (n : Int)).data = c :: cs := by
    rw [formatInt_data, Nat.toDigits, hx, hc]
    simp
  have hplus : (c == '+') = false := by
    rw [beq_eq_false_iff_ne]
    rintro rfl
    exact absurd hcd (by decide)
  have hminus : (c == '-') = false := by
    rw [beq_eq_false_iff_ne]
    rintro rfl
    exact absurd hcd (by decide)
  have hparse : parseDigits (c :: cs) 0 = some n := by
    have := hp [] 0
    rw [hc] at this
    simpa [parseDigits] using this
  unfold ParseInt
  rw [hdata]
  simp only [hplus, hminus, Bool.or_self, Bool.false_eq_true, if_false, hparse]
  have : ¬ (n ≥ 2 ^ 63) := by omega
  simp only [this, if_false]

/-! ## The stopped document is outside the reach of start -/

theorem stopProcessId_stoppedLog (pid : String) (w : World) :
    (stopProcessId pid w).2.stoppedLog = w.stoppedLog := by
  obtain ⟨l, z, s, h⟩ := stopProcessId_frame pid w
  rw [h]

theorem loadRunningProcessLog_stoppedLog (w : World) :
    (loadRunningProcessLog w).2.stoppedLog = w.stoppedLog := by
  unfold loadRunningProcessLog readJson writeJson
  simp only [RUNNING_PROCESS_LOG_FILEPATH]
  cases w.runningLog <;> simp only []
  cases w.writes.headD WriteOutcome.ok <;> rfl

theorem loadProcessLog_stoppedLog (w : World) :
    (loadProcessLog w).2.stoppedLog = w.stoppedLog := by
  unfold loadProcessLog readJson writeJson
  simp only [PROCESS_LOG_FILEPATH]
  cases w.processLog <;> simp only []
  cases w.writes.headD WriteOutcome.ok <;> rfl

theorem writeJson_registry_stoppedLog (d : PMXProcessLog) (w : World) :
    (writeJson PROCESS_LOG_FILEPATH d w).2.stoppedLog = w.stoppedLog := by
  unfold writeJson
  cases w.writes.headD WriteOutcome.ok <;> rfl

theorem writeJson_running_stoppedLog (d : PMXRunningProcessLog) (w : World) :
    (writeJson RUNNING_PROCESS_LOG_FILEPATH d w).2.stoppedLog = w.stoppedLog := by
  unfold writeJson
  cases w.writes.headD WriteOutcome.ok <;> rfl

theorem cmdStart_stoppedLog (cmd : String) (args : List String) (w : World) :
    (cmdStart cmd args w).2.stoppedLog = w.stoppedLog := by
  unfold cmdStart
  cases w.starts.headD none <;> rfl

/-- No start, successful or not, changes the stopped document. -/
theorem startProcess_keeps_stoppedLog (process : PMXProcess) (w : World) :
    (startProcess process w).2.stoppedLog = w.stoppedLog := by
  have h1 := loadRunningProcessLog_stoppedLog w
  unfold startProcess
  rcases hl1 : loadRunningProcessLog w with ⟨r1, w1⟩
  rw [hl1] at h1
  simp only [] at h1
  cases r1 with
  | error e => exact h1
  | ok runningLog =>
    simp only []
    generalize hw2 : (match runningLog.lookup (loadProcessLogFiles process).Name with
        | some pid => (stopProcessId pid w1).2
        | none => w1) = w2
    have h2 : w2.stoppedLog = w.stoppedLog := by
      rw [← hw2]
      cases runningLog.lookup (loadProcessLogFiles process).Name with
      | none => exact h1
      | some pid => exact (stopProcessId_stoppedLog pid w1).trans h1
    have h3 := loadProcessLog_stoppedLog w2
    rcases hl3 : loadProcessLog w2 with ⟨r3, w3⟩
    rw [hl3] at h3
    simp only [] at h3
    cases r3 with
    | error e => exact h3.trans h2
    | ok processLog =>
      simp only []
      have h3w : w3.stoppedLog = w.stoppedLog := h3.trans h2
      generalize ho : (if nilOrEmpty (loadProcessLogFiles process).Stdout = true then (true, w3)
          else openLogFile ((loadProcessLogFiles process).Stdout.getD "") w3) = outOpen
      have h4 : outOpen.2.stoppedLog = w.stoppedLog := by
        rw [← ho]
        split
        · exact h3w
        · exact h3w
      split
      · exact h4
      · generalize he : (if nilOrEmpty (loadProcessLogFiles process).Stderr = true
            then (true, outOpen.2)
            else openLogFile ((loadProcessLogFiles process).Stderr.getD "") outOpen.2) = errOpen
        have h5 : errOpen.2.stoppedLog = w.stoppedLog := by
          rw [← he]
          split
          · exact h4
          · exact h4
        split
        · exact h5
        · have h6 := cmdStart_stoppedLog (loadProcessLogFiles process).Cmd
            (loadProcessLogFiles process).Args errOpen.2
          rcases hc : cmdStart (loadProcessLogFiles process).Cmd
            (loadProcessLogFiles process).Args errOpen.2 with ⟨r4, w4⟩
          rw [hc] at h6
          simp only [] at h6
          cases r4 with
          | none => exact h6.trans h5
          | some newPid =>
            simp only []
            have h7 := writeJson_registry_stoppedLog
              (processLog.insert (loadProcessLogFiles process).Name (loadProcessLogFiles process))
              w4
            rcases hw5 : writeJson PROCESS_LOG_FILEPATH
              (processLog.insert (loadProcessLogFiles process).Name (loadProcessLogFiles process))
              w4 with ⟨r5, w5⟩
            rw [hw5] at h7
            simp only [] at h7
            cases r5 with
            | some e =>
              exact (stopProcessId_stoppedLog _ w5).trans (h7.trans (h6.trans h5))
            | none =>
              simp only []
              have h8 := writeJson_running_stoppedLog
                (runningLog.insert (loadProcessLogFiles process).Name (formatInt newPid)) w5
              rcases hw6 : writeJson RUNNING_PROCESS_LOG_FILEPATH
                (runningLog.insert (loadProcessLogFiles process).Name (formatInt newPid))
                w5 with ⟨r6, w6⟩
              rw [hw6] at h8
              simp only [] at h8
              cases r6 with
              | some e =>
                exact (stopProcessId_stoppedLog _ w6).trans (h8.trans (h7.trans (h6.trans h5)))
              | none => exact h8.trans (h7.trans (h6.trans h5))

/-- C1: `loadProcessLogFiles` replaces a nil or empty Stdout by
`SERVICE_WORKING_DIR/Name.out.log` and a nil or empty Stderr by
`SERVICE_WORKING_DIR/Name.err.log`, leaves a non-empty path and every other
field as they are, and applying it twice gives the same definition as applying
it once. -/
theorem loadProcessLogFiles_defaults_and_idempotent (p : PMXProcess) :
    ((p.Stdout = none ∨ p.Stdout = some "") →
      (loadProcessLogFiles p).Stdout
        = some (SERVICE_WORKING_DIR ++ "/" ++ p.Name ++ ".out.log")) ∧
    ((p.Stderr = none ∨ p.Stderr = some "") →
      (loadProcessLogFiles p).Stderr
        = some (SERVICE_WORKING_DIR ++ "/" ++ p.Name ++ ".err.log")) ∧
    (∀ s, p.Stdout = some s → s ≠ "" → (loadProcessLogFiles p).Stdout = some s) ∧
    (∀ s, p.Stderr = some s → s ≠ "" → (loadProcessLogFiles p).Stderr = some s) ∧
    ((loadProcessLogFiles p).Name = p.Name ∧ (loadProcessLogFiles p).Cmd = p.Cmd ∧
      (loadProcessLogFiles p).Args = p.Args ∧
      (loadProcessLogFiles p).AutoRestart = p.AutoRestart) ∧
    loadProcessLogFiles (loadProcessLogFiles p) = loadProcessLogFiles p := by
  have hfix := nilOrEmpty_loadProcessLogFiles p
  refine ⟨?_, ?_, ?_, ?_, ?_, ?_⟩
  · intro h
    rw [loadProcessLogFiles_eq]
    simp [(nilOrEmpty_iff p.Stdout).2 h]
  · intro h
    rw [loadProcessLogFiles_eq]
    simp [(nilOrEmpty_iff p.Stderr).2 h]
  · intro s hs hne
    have : nilOrEmpty p.Stdout = false := by
      rw [Bool.eq_false_iff, Ne, nilOrEmpty_iff]
      simp [hs, hne]
    rw [loadProcessLogFiles_eq]
    rw [hs] at this
    simp [this, hs]
  · intro s hs hne
    have : nilOrEmpty p.Stderr = false := by
      rw [Bool.eq_false_iff, Ne, nilOrEmpty_iff]
      simp [hs, hne]
    rw [loadProcessLogFiles_eq]
    rw [hs] at this
    simp [this, hs]
  · rw [loadProcessLogFiles_eq]
    simp
  · rw [loadProcessLogFiles_eq (loadProcessLogFiles p)]
    simp [hfix.1, hfix.2]

/-- Witness of C1: the definition `web`, supplied without log paths. -/
theorem loadProcessLogFiles_defaults_and_idempotent_witness :
    (loadProcessLogFiles web).Stdout = some "/var/lib/pmx/web.out.log" ∧
    (loadProcessLogFiles web).Stderr = some "/var/lib/pmx/web.err.log" ∧
    (∀ s, webStored.Stdout = some s → s ≠ "" → (loadProcessLogFiles webStored).Stdout = some s) ∧
    loadProcessLogFiles (loadProcessLogFiles web) = loadProcessLogFiles web :=
  ⟨(loadProcessLogFiles_defaults_and_idempotent web).1 (Or.inl rfl),
    (loadProcessLogFiles_defaults_and_idempotent web).2.1 (Or.inl rfl),
    (loadProcessLogFiles_defaults_and_idempotent webStored).2.2.1,
    (loadProcessLogFiles_defaults_and_idempotent web).2.2.2.2.2⟩

/-! ## Claims on start and stop -/

/-- C2: for a readable persisted state, when the launch (both log files open
and the command starts with process id `pid`) and the writes succeed,
`startProcess` returns `pid`; afterwards the Registry maps the definition's
Name to the definition with its log paths defaulted, the RunningTable maps the
Name to the decimal text of `pid`, and the entries of both documents under
every other name are as before. -/
theorem startProcess_registers_and_records (process : PMXProcess) (w : World)
    (running : PMXRunningProcessLog) (registry : PMXProcessLog) (pid : Int)
    (hrun : w.runningLog = Doc.holds running)
    (hreg : w.processLog = Doc.holds registry)
    (hwrites : ∀ o ∈ w.writes.take 4, o = WriteOutcome.ok)
    (hopens : ∀ b ∈ w.opens.take 2, b = true)
    (hstart : w.starts.head? = some (some pid)) :
    (startProcess process w).1 = Except.ok pid ∧
    ∃ registry1 running1,
      (startProcess process w).2.processLog = Doc.holds registry1 ∧
      (startProcess process w).2.runningLog = Doc.holds running1 ∧
      registry1.lookup process.Name = some (loadProcessLogFiles process) ∧
      running1.lookup process.Name = some (formatInt pid) ∧
      (∀ name, name ≠ process.Name → registry1.lookup name = registry.lookup name) ∧
      (∀ name, name ≠ process.Name → running1.lookup name = running.lookup name) := by
  obtain ⟨l, z, s, h⟩ := startProcess_run process w running registry pid hrun hreg hwrites
    hopens hstart
  rw [h]
  refine ⟨rfl, _, _, rfl, rfl, ?_, ?_, ?_, ?_⟩
  · exact AList.lookup_insert _
  · exact AList.lookup_insert _
  · intro name hne
    exact AList.lookup_insert_ne hne
  · intro name hne
    exact AList.lookup_insert_ne hne

/-- Witness of C2: the first start of `web` from three empty documents. -/
theorem startProcess_registers_and_records_witness :
    (startProcess web beforeStart).1 = Except.ok 4242 ∧
    ∃ registry1 running1,
      (startProcess web beforeStart).2.processLog = Doc.holds registry1 ∧
      (startProcess web beforeStart).2.runningLog = Doc.holds running1 ∧
      registry1.lookup web.Name = some (loadProcessLogFiles web) ∧
      running1.lookup web.Name = some (formatInt 4242) ∧
      (∀ name, name ≠ web.Name →
        registry1.lookup name = (∅ : PMXProcessLog).lookup name) ∧
      (∀ name, name ≠ web.Name →
        running1.lookup name = (∅ : PMXRunningProcessLog).lookup name) :=
  startProcess_registers_and_records web beforeStart ∅ ∅ 4242 rfl rfl
    (by decide) (by decide) rfl

/-- C3: when the Name has a RunningTable entry, the StoppedTable is readable,
stop-by-id on the recorded id reports no error and the writes succeed,
`stopProcess` returns no error; afterwards the StoppedTable maps the Name to
true, the RunningTable has no entry for the Name, the entries of both tables
under every other name are as before, and the Registry document is as before. -/
theorem stopProcess_marks_stopped_and_unrecords (process : PMXProcess) (w : World)
    (running : PMXRunningProcessLog) (stopped : PMXStoppedProcessLog) (pid : String)
    (hrun : w.runningLog = Doc.holds running)
    (hstp : w.stoppedLog = Doc.holds stopped)
    (hpid : running.lookup process.Name = some pid)
    (hkill : (stopProcessId pid w).1 = none)
    (hwrites : ∀ o ∈ w.writes.take 4, o = WriteOutcome.ok) :
    (stopProcess process w).1 = none ∧
    (∃ stopped1 running1,
      (stopProcess process w).2.stoppedLog = Doc.holds stopped1 ∧
      (stopProcess process w).2.runningLog = Doc.holds running1 ∧
      stopped1.lookup process.Name = some true ∧
      running1.lookup process.Name = none ∧
      (∀ name, name ≠ process.Name → stopped1.lookup name = stopped.lookup name) ∧
      (∀ name, name ≠ process.Name → running1.lookup name = running.lookup name)) ∧
    (stopProcess process w).2.processLog = w.processLog := by
  obtain ⟨l, z, s, h⟩ := stopProcess_run process w running stopped pid hrun hstp hpid hkill
    hwrites
  rw [h]
  refine ⟨rfl, ⟨_, _, rfl, rfl, ?_, ?_, ?_, ?_⟩, rfl⟩
  · exact AList.lookup_insert _
  · exact AList.lookup_erase _ _
  · intro name hne
    exact AList.lookup_insert_ne hne
  · intro name hne
    exact AList.lookup_erase_ne hne

/-- Witness of C3: stopping `web` while it runs as process 4242. -/
theorem stopProcess_marks_stopped_and_unrecords_witness :
    (stopProcess webStored webRunning).1 = none ∧
    (∃ stopped1 running1,
      (stopProcess webStored webRunning).2.stoppedLog = Doc.holds stopped1 ∧
      (stopProcess webStored webRunning).2.runningLog = Doc.holds running1 ∧
      stopped1.lookup webStored.Name = some true ∧
      running1.lookup webStored.Name = none ∧
      (∀ name, name ≠ webStored.Name →
        stopped1.lookup name = (∅ : PMXStoppedProcessLog).lookup name) ∧
      (∀ name, name ≠ webStored.Name →
        running1.lookup name = webRunningTable.lookup name)) ∧
    (stopProcess webStored webRunning).2.processLog = webRunning.processLog :=
  stopProcess_marks_stopped_and_unrecords webStored webRunning _ ∅ "4242" rfl rfl
    (by decide) (by decide) (by decide)

/-- C4: when the Name has no RunningTable entry and the running and stopped
documents are readable (their write-backs succeed), `stopProcess` returns no
error, sends no signal, and leaves the three documents and the process table
as they were; a second call does the same. -/
theorem stopProcess_not_running_is_noop (process : PMXProcess) (w : World)
    (running : PMXRunningProcessLog) (stopped : PMXStoppedProcessLog)
    (hrun : w.runningLog = Doc.holds running)
    (hstp : w.stoppedLog = Doc.holds stopped)
    (hpid : running.lookup process.Name = none)
    (hwrites : ∀ o ∈ w.writes.take 4, o = WriteOutcome.ok) :
    ((stopProcess process w).1 = none ∧
      (stopProcess process w).2.signals = w.signals ∧
      (stopProcess process w).2.live = w.live ∧
      (stopProcess process w).2.processLog = w.processLog ∧
      (stopProcess process w).2.runningLog = w.runningLog ∧
      (stopProcess process w).2.stoppedLog = w.stoppedLog) ∧
    ((stopProcess process (stopProcess process w).2).1 = none ∧
      (stopProcess process (stopProcess process w).2).2.signals = w.signals ∧
      (stopProcess process (stopProcess process w).2).2.live = w.live ∧
      (stopProcess process (stopProcess process w).2).2.processLog = w.processLog ∧
      (stopProcess process (stopProcess process w).2).2.runningLog = w.runningLog ∧
      (stopProcess process (stopProcess process w).2).2.stoppedLog = w.stoppedLog) := by
  obtain ⟨hw1, hw⟩ := take_succ_ok hwrites
  obtain ⟨hw2, hw⟩ := take_succ_ok hw
  have hfirst : ∀ o ∈ w.writes.take 2, o = WriteOutcome.ok := by
    intro o ho
    exact hwrites o (List.take_subset_take_left _ (by decide) ho)
  have h1 := stopProcess_noop process w running stopped hrun hstp hpid hfirst
  have h2 := stopProcess_noop process { w with writes := w.writes.tail.tail } running stopped
    hrun hstp hpid hw
  rw [h1, h2]
  exact ⟨⟨rfl, rfl, rfl, rfl, rfl, rfl⟩, rfl, rfl, rfl, rfl, rfl, rfl⟩

/-- Witness of C4: stopping `web` twice after it was already stopped. -/
theorem stopProcess_not_running_is_noop_witness :
    ((stopProcess webStored webStopped).1 = none ∧
      (stopProcess webStored webStopped).2.signals = webStopped.signals ∧
      (stopProcess webStored webStopped).2.live = webStopped.live ∧
      (stopProcess webStored webStopped).2.processLog = webStopped.processLog ∧
      (stopProcess webStored webStopped).2.runningLog = webStopped.runningLog ∧
      (stopProcess webStored webStopped).2.stoppedLog = webStopped.stoppedLog) ∧
    ((stopProcess webStored (stopProcess webStored webStopped).2).1 = none ∧
      (stopProcess webStored (stopProcess webStored webStopped).2).2.signals
        = webStopped.signals ∧
      (stopProcess webStored (stopProcess webStored webStopped).2).2.live = webStopped.live ∧
      (stopProcess webStored (stopProcess webStored webStopped).2).2.processLog
        = webStopped.processLog ∧
      (stopProcess webStored (stopProcess webStored webStopped).2).2.runningLog
        = webStopped.runningLog ∧
      (stopProcess webStored (stopProcess webStored webStopped).2).2.stoppedLog
        = webStopped.stoppedLog) :=
  stopProcess_not_running_is_noop webStored webStopped ∅ _ rfl rfl (by decide) (by decide)

/-! ## Evaluations of the code where it departs from the specification -/

/-- C5: the code at the failing input.  No `startProcess` changes the stopped
document.  In particular, with `web` explicitly stopped, a subsequent
`startProcess` succeeds with pid 5000 and records it as running, yet the
StoppedTable still maps `web` to true; when that process then dies, a monitor
iteration sweeps the Registry without invoking `startProcess`. -/
theorem start_after_stop_leaves_stopped_flag :
    (∀ (process : PMXProcess) (w : World),
      (startProcess process w).2.stoppedLog = w.stoppedLog) ∧
    webStopped.stoppedLog = Doc.holds ((∅ : PMXStoppedProcessLog).insert "web" true) ∧
    (startProcess webStored webStopped).1 = Except.ok 5000 ∧
    (startProcess webStored webStopped).2.runningLog
      = Doc.holds ((∅ : PMXRunningProcessLog).insert "web" "5000") ∧
    (startProcess webStored webStopped).2.stoppedLog
      = Doc.holds ((∅ : PMXStoppedProcessLog).insert "web" true) ∧
    (monitorIteration webRestartedThenDied).1 = MonitorOutcome.swept [] :=
  ⟨startProcess_keeps_stoppedLog, rfl, rfl, rfl, rfl, rfl⟩

/-- C9: the code at the failing input.  A loader whose backing file is absent
returns the open error and leaves the world, hence the missing file, as it
was; on a fresh installation this holds for the three loaders, and a start
fails in the same way without launching anything. -/
theorem load_of_absent_document_fails :
    (∀ w : World, w.processLog = Doc.absent →
      loadProcessLog w = (Except.error "failed to open file", w)) ∧
    (∀ w : World, w.runningLog = Doc.absent →
      loadRunningProcessLog w = (Except.error "failed to open file", w)) ∧
    (∀ w : World, w.stoppedLog = Doc.absent →
      loadStoppedProcessLog w = (Except.error "failed to open file", w)) ∧
    freshInstall.processLog = Doc.absent ∧
    freshInstall.runningLog = Doc.absent ∧
    freshInstall.stoppedLog = Doc.absent ∧
    loadProcessLog freshInstall = (Except.error "failed to open file", freshInstall) ∧
    loadRunningProcessLog freshInstall
      = (Except.error "failed to open file", freshInstall) ∧
    loadStoppedProcessLog freshInstall
      = (Except.error "failed to open file", freshInstall) ∧
    startProcess web freshInstall = (Except.error "failed to open file", freshInstall) := by
  refine ⟨?_, ?_, ?_, rfl, rfl, rfl, rfl, rfl, rfl, rfl⟩
  · intro w h
    unfold loadProcessLog readJson
    simp only [PROCESS_LOG_FILEPATH, h]
  · intro w h
    unfold loadRunningProcessLog readJson
    simp only [RUNNING_PROCESS_LOG_FILEPATH, h]
  · intro w h
    unfold loadStoppedProcessLog readJson
    simp only [STOPPED_PROCESS_LOG_FILEPATH, h]

/-- C10: the code at the failing input.  Whenever the Registry load succeeds,
the named process is registered and the lifecycle call fails, the handler
writes the error object and then the success message as well; so for `/start`
of `web` when the launch fails, and for `/stop` of `web` when the kill is
refused. -/
theorem handlers_emit_success_after_failure :
    (∀ (name : String) (w : World) (registry : PMXProcessLog) (entry : PMXProcess) (e : String),
      name ≠ "" → (loadProcessLog w).1 = Except.ok registry →
      registry.lookup name = some entry →
      (startProcess entry (loadProcessLog w).2).1 = Except.error e →
      (handleStart name w).1
        = [[("Error", "Unable to start process.")], [("Message", "Process started.")]]) ∧
    (∀ (name : String) (w : World) (registry : PMXProcessLog) (entry : PMXProcess) (e : String),
      name ≠ "" → (loadProcessLog w).1 = Except.ok registry →
      registry.lookup name = some entry →
      (stopProcess entry (loadProcessLog w).2).1 = some e →
      (handleStop name w).1
        = [[("Error", "Unable to stop process.")], [("Message", "Process stopped.")]]) ∧
    (∃ e, (startProcess webStored webLaunchFails).1 = Except.error e) ∧
    (handleStart "web" webLaunchFails).1
      = [[("Error", "Unable to start process.")], [("Message", "Process started.")]] ∧
    (∃ e, (stopProcess webStored webUnkillable).1 = some e) ∧
    (handleStop "web" webUnkillable).1
      = [[("Error", "Unable to stop process.")], [("Message", "Process stopped.")]] := by
  refine ⟨?_, ?_, ⟨"failed to start process", rfl⟩, rfl, ⟨"failed to kill process", rfl⟩, rfl⟩
  · intro name w registry entry e hne hload hentry hfail
    unfold handleStart
    simp only [hne, hload, hentry, hfail, ne_eq, not_false_eq_true, if_true]
    rfl
  · intro name w registry entry e hne hload hentry hfail
    unfold handleStop
    simp only [hne, hload, hentry, hfail, ne_eq, not_false_eq_true, if_true]
    rfl

/-! ## Supervisor monitor -/

theorem runLs_ok (w : World) (running : PMXRunningProcessLog) (registry : PMXProcessLog)
    (hrun : w.runningLog = Doc.holds running)
    (hreg : w.processLog = Doc.holds registry)
    (hwrites : ∀ o ∈ w.writes.take 2, o = WriteOutcome.ok) :
    runLs w = (none, { w with writes := w.writes.tail.tail }) := by
  obtain ⟨h1, hwrites⟩ := take_succ_ok hwrites
  obtain ⟨h2, -⟩ := take_succ_ok hwrites
  unfold runLs
  rw [loadRunningProcessLog_ok w running hrun h1]
  simp only []
  rw [loadProcessLog_ok { w with writes := w.writes.tail } registry hreg h2]

/-- Removal of an unknown name: nothing but the write-backs of the loads. -/
theorem runRemove_unknown (w : World) (running : PMXRunningProcessLog)
    (registry : PMXProcessLog) (name : String)
    (hrun : w.runningLog = Doc.holds running)
    (hreg : w.processLog = Doc.holds registry)
    (hwrites : ∀ o ∈ w.writes.take 4, o = WriteOutcome.ok)
    (hname : registry.lookup name = none) :
    runRemove [name] w = (none, { w with writes := w.writes.tail.tail.tail.tail }) := by
  obtain ⟨h1, hw1⟩ := take_succ_ok hwrites
  obtain ⟨h2, hw2⟩ := take_succ_ok hw1
  unfold runRemove
  rw [loadRunningProcessLog_ok w running hrun h1]
  simp only []
  rw [loadProcessLog_ok { w with writes := w.writes.tail } registry hreg h2]
  simp only [runRemoveLoop, hname]
  rw [runLs_ok { w with writes := w.writes.tail.tail } running registry hrun hreg hw2]

/-- Removal of a registered name that is not running. -/
theorem runRemove_offline (w : World) (running : PMXRunningProcessLog)
    (registry : PMXProcessLog) (name : String) (process : PMXProcess)
    (hrun : w.runningLog = Doc.holds running)
    (hreg : w.processLog = Doc.holds registry)
    (hwrites : ∀ o ∈ w.writes.take 5, o = WriteOutcome.ok)
    (hname : registry.lookup name = some process)
    (hoff : running.lookup name = none) :
    runRemove [name] w =
      (none, { w with
        processLog := Doc.holds (registry.erase process.Name),
        writes := w.writes.tail.tail.tail.tail.tail }) := by
  obtain ⟨h1, hw1⟩ := take_succ_ok hwrites
  obtain ⟨h2, hw2⟩ := take_succ_ok hw1
  obtain ⟨h3, hw3⟩ := take_succ_ok hw2
  unfold runRemove
  rw [loadRunningProcessLog_ok w running hrun h1]
  simp only []
  rw [loadProcessLog_ok { w with writes := w.writes.tail } registry hreg h2]
  simp only [runRemoveLoop, hname, hoff]
  rw [writeJson_ok _ _ _ h3]
  simp only [PROCESS_LOG_FILEPATH]
  have hls := runLs_ok
    { w with
      processLog := Doc.holds (registry.erase process.Name),
      writes := w.writes.tail.tail.tail }
    running (registry.erase process.Name) hrun rfl hw3
  rw [hls]

/-- Removal of a registered name that is running. -/
theorem runRemove_online (w : World) (running : PMXRunningProcessLog)
    (registry : PMXProcessLog) (stopped : PMXStoppedProcessLog)
    (name : String) (process : PMXProcess) (pid : String)
    (hrun : w.runningLog = Doc.holds running)
    (hreg : w.processLog = Doc.holds registry)
    (hstp : w.stoppedLog = Doc.holds stopped)
    (hwrites : ∀ o ∈ w.writes.take 9, o = WriteOutcome.ok)
    (hname : registry.lookup name = some process)
    (hon : running.lookup name = some pid)
    (hpid : running.lookup process.Name = some pid)
    (hkill : (stopProcessId pid w).1 = none) :
    ∃ l z s, runRemove [name] w =
      (none, { w with
        processLog := Doc.holds (registry.erase process.Name),
        stoppedLog := Doc.holds (stopped.insert process.Name true),
        runningLog := Doc.holds (running.erase process.Name),
        live := l, zombies := z, signals := s,
        writes := w.writes.tail.tail.tail.tail.tail.tail.tail.tail.tail }) := by
  obtain ⟨h1, hw1⟩ := take_succ_ok hwrites
  obtain ⟨h2, hw2⟩ := take_succ_ok hw1
  have hw6 := take_tail_ok (take_tail_ok (take_tail_ok (take_tail_ok hw2)))
  obtain ⟨h7, hw7⟩ := take_succ_ok hw6
  have hk : (stopProcessId pid { w with writes := w.writes.tail.tail }).1 = none := by
    rw [← hkill]
    exact stopProcessId_fst_congr pid _ _ rfl rfl rfl
  obtain ⟨l, z, s, hstop⟩ := stopProcess_run process { w with writes := w.writes.tail.tail }
    running stopped pid hrun hstp hpid hk (take_ok_of_le (by decide) hw2)
  refine ⟨l, z, s, ?_⟩
  unfold runRemove
  rw [loadRunningProcessLog_ok w running hrun h1]
  simp only []
  rw [loadProcessLog_ok { w with writes := w.writes.tail } registry hreg h2]
  simp only [runRemoveLoop, hname, hon]
  rw [hstop]
  simp only []
  rw [writeJson_ok _ _ _ h7]
  simp only [PROCESS_LOG_FILEPATH]
  have hls := runLs_ok
    { w with
      processLog := Doc.holds (registry.erase process.Name),
      stoppedLog := Doc.holds (stopped.insert process.Name true),
      runningLog := Doc.holds (running.erase process.Name),
      live := l, zombies := z, signals := s,
      writes := w.writes.tail.tail.tail.tail.tail.tail.tail }
    (running.erase process.Name) (registry.erase process.Name) rfl rfl hw7
  rw [hls]

/-- C7, as stated, fails at two concrete states.  In `mislabelled` the name
`api` is a key of the Registry (its entry carries the Name `web`), is not
running, and every write succeeds, yet
after `runRemove` on `api` the Registry still holds `api`.  In
`runningUnreadable` the name `web` is not a key of the Registry, yet
`runRemove` on `web` reports an error. -/
theorem runRemove_counterexample :
    (mislabelled.processLog = Doc.holds mislabelledRegistry ∧
      mislabelledRegistry.lookup "api" = some webStored ∧
      webStored.Name = "web" ∧
      mislabelled.runningLog = Doc.holds ∅ ∧
      mislabelled.writes = [] ∧
      (runRemove ["api"] mislabelled).1 = none ∧
      (runRemove ["api"] mislabelled).2.processLog = Doc.holds mislabelledRegistry) ∧
    (runningUnreadable.processLog = Doc.holds ∅ ∧
      (∅ : PMXProcessLog).lookup "web" = none ∧
      (runRemove ["web"] runningUnreadable).1 = some "json decode error") :=
  ⟨⟨rfl, rfl, rfl, rfl, rfl, rfl, rfl⟩, rfl, rfl, rfl⟩

/-- C7, amended: in a persisted state whose running document and Registry
decode, `runRemove` on a Registry key whose entry carries that key as its Name
returns no error and leaves the name absent from the Registry and from the
RunningTable, every other Registry entry being as before, when the writes of
the call succeed (five when the name is not running, nine when it is) and, in
case the name is running, the stopped document decodes and stop-by-id reports
no error; on a name that is not a Registry key it returns no error and leaves
the three documents as they were, when its four write-backs succeed. -/
theorem runRemove_readable_state (w : World) (running : PMXRunningProcessLog)
    (registry : PMXProcessLog) (name : String)
    (hrun : w.runningLog = Doc.holds running)
    (hreg : w.processLog = Doc.holds registry) :
    (∀ process, registry.lookup name = some process → process.Name = name →
      (running.lookup name = none ∧ (∀ o ∈ w.writes.take 5, o = WriteOutcome.ok)) ∨
        (∃ pid stopped, running.lookup name = some pid ∧
          w.stoppedLog = Doc.holds stopped ∧ (stopProcessId pid w).1 = none ∧
          ∀ o ∈ w.writes.take 9, o = WriteOutcome.ok) →
      (runRemove [name] w).1 = none ∧
      ∃ registry1 running1,
        (runRemove [name] w).2.processLog = Doc.holds registry1 ∧
        (runRemove [name] w).2.runningLog = Doc.holds running1 ∧
        registry1.lookup name = none ∧
        running1.lookup name = none ∧
        ∀ other, other ≠ name → registry1.lookup other = registry.lookup other) ∧
    (registry.lookup name = none → (∀ o ∈ w.writes.take 4, o = WriteOutcome.ok) →
      (runRemove [name] w).1 = none ∧
      (runRemove [name] w).2.processLog = w.processLog ∧
      (runRemove [name] w).2.runningLog = w.runningLog ∧
      (runRemove [name] w).2.stoppedLog = w.stoppedLog) := by
  constructor
  · intro process hname hkey hcase
    rcases hcase with ⟨hoff, hwrites⟩ | ⟨pid, stopped, hon, hstp, hkill, hwrites⟩
    · rw [runRemove_offline w running registry name process hrun hreg hwrites hname hoff]
      refine ⟨rfl, _, running, rfl, hrun, ?_, hoff, ?_⟩
      · rw [hkey]
        exact AList.lookup_erase _ _
      · intro other hne
        rw [hkey]
        exact AList.lookup_erase_ne hne
    · obtain ⟨l, z, s, h⟩ := runRemove_online w running registry stopped name process pid
        hrun hreg hstp hwrites hname hon (hkey ▸ hon) hkill
      rw [h]
      refine ⟨rfl, _, _, rfl, rfl, ?_, ?_, ?_⟩
      · rw [hkey]
        exact AList.lookup_erase _ _
      · rw [hkey]
        exact AList.lookup_erase _ _
      · intro other hne
        rw [hkey]
        exact AList.lookup_erase_ne hne
  · intro hname hwrites
    rw [runRemove_unknown w running registry name hrun hreg hwrites hname]
    exact ⟨rfl, rfl, rfl, rfl⟩

/-- Witness of C7, amended: removing `web` while it runs as process 4242,
removing `web` when it is registered and not running, and removing the unknown
name `db` while the stopped document is missing. -/
theorem runRemove_readable_state_witness :
    ((runRemove ["web"] webRunning).1 = none ∧
      ∃ registry1 running1,
        (runRemove ["web"] webRunning).2.processLog = Doc.holds registry1 ∧
        (runRemove ["web"] webRunning).2.runningLog = Doc.holds running1 ∧
        registry1.lookup "web" = none ∧
        running1.lookup "web" = none ∧
        ∀ other, other ≠ "web" → registry1.lookup other = webRegistry.lookup other) ∧
    ((runRemove ["web"] webLaunchFails).1 = none ∧
      ∃ registry1 running1,
        (runRemove ["web"] webLaunchFails).2.processLog = Doc.holds registry1 ∧
        (runRemove ["web"] webLaunchFails).2.runningLog = Doc.holds running1 ∧
        registry1.lookup "web" = none ∧
        running1.lookup "web" = none ∧
        ∀ other, other ≠ "web" → registry1.lookup other = webRegistry.lookup other) ∧
    ((runRemove ["db"] stoppedMissing).1 = none ∧
      (runRemove ["db"] stoppedMissing).2.processLog = stoppedMissing.processLog ∧
      (runRemove ["db"] stoppedMissing).2.runningLog = stoppedMissing.runningLog ∧
      (runRemove ["db"] stoppedMissing).2.stoppedLog = stoppedMissing.stoppedLog) :=
  ⟨(runRemove_readable_state webRunning webRunningTable webRegistry "web" rfl rfl).1
      webStored rfl rfl
      (Or.inr ⟨"4242", ∅, rfl, rfl, rfl, by decide⟩),
    (runRemove_readable_state webLaunchFails ∅ webRegistry "web" rfl rfl).1
      webStored rfl rfl (Or.inl ⟨rfl, by decide⟩),
    (runRemove_readable_state stoppedMissing webRunningTable webRegistry "db" rfl rfl).2
      rfl (by decide)⟩

/-! ## Start when persistence fails -/

/-- Stop-by-id on the decimal text of the id of a running process: the probe
and the kill are sent; a refused kill is reported and leaves the process
running; a delivered kill ends it, and it stays in the process table when
nobody waits for it. -/
theorem stopProcessId_formatInt_running (pid : Int) (w : World)
    (hpos : 0 < pid) (h63 : pid < 2 ^ 63) (hlive : pid ∈ w.live) :
    stopProcessId (formatInt pid) w =
      if pid ∈ w.unkillable then
        (some "failed to kill process",
          { w with signals := w.signals ++ [(pid, 0), (pid, 9)] })
      else
        (none,
          { w with
            signals := w.signals ++ [(pid, 0), (pid, 9)],
            live := w.live.filter (fun q => q ≠ pid),
            zombies := if pid ∈ w.unreaped then pid :: w.zombies else w.zombies }) := by
  have h0 : pid ≠ 0 := by omega
  have h1 : pid ≠ -1 := by omega
  unfold stopProcessId
  rw [ParseInt_formatInt pid (le_of_lt hpos) h63]
  simp only [signalZero, kill, h0, h1, hlive, ne_eq, not_false_eq_true, true_or, and_self,
    decide_True, true_and, List.append_assoc, List.singleton_append]
  by_cases hk : pid ∈ w.unkillable
  · simp only [hk, if_true]
  · simp only [hk, if_false]

theorem writeJson_registry_fail (d : PMXProcessLog) (w : World)
    (h : w.writes.headD WriteOutcome.ok ≠ WriteOutcome.ok) :
    ∃ e w1, writeJson PROCESS_LOG_FILEPATH d w = (some e, w1) ∧ w1.live = w.live ∧
      w1.zombies = w.zombies ∧ w1.unreaped = w.unreaped ∧
      w1.unkillable = w.unkillable := by
  unfold writeJson
  cases hq : w.writes.headD WriteOutcome.ok with
  | ok => exact absurd hq h
  | openFails => exact ⟨_, _, rfl, rfl, rfl, rfl, rfl⟩
  | failsAfterTruncate => exact ⟨_, _, rfl, rfl, rfl, rfl, rfl⟩

theorem writeJson_running_fail (d : PMXRunningProcessLog) (w : World)
    (h : w.writes.headD WriteOutcome.ok ≠ WriteOutcome.ok) :
    ∃ e w1, writeJson RUNNING_PROCESS_LOG_FILEPATH d w = (some e, w1) ∧ w1.live = w.live ∧
      w1.zombies = w.zombies ∧ w1.unreaped = w.unreaped ∧
      w1.unkillable = w.unkillable := by
  unfold writeJson
  cases hq : w.writes.headD WriteOutcome.ok with
  | ok => exact absurd hq h
  | openFails => exact ⟨_, _, rfl, rfl, rfl, rfl, rfl⟩
  | failsAfterTruncate => exact ⟨_, _, rfl, rfl, rfl, rfl, rfl⟩

theorem third_or_fourth_fails {l : List WriteOutcome}
    (h : ∃ o ∈ (l.drop 2).take 2, o ≠ WriteOutcome.ok) :
    l.tail.tail.headD WriteOutcome.ok ≠ WriteOutcome.ok ∨
      (l.tail.tail.headD WriteOutcome.ok = WriteOutcome.ok ∧
        l.tail.tail.tail.headD WriteOutcome.ok ≠ WriteOutcome.ok) := by
  obtain ⟨o, ho, hne⟩ := h
  rcases l with _ | ⟨a, _ | ⟨b, _ | ⟨c, _ | ⟨d, t⟩⟩⟩⟩
  · simp at ho
  · simp at ho
  · simp at ho
  · simp at ho
    subst ho
    exact Or.inl (by simpa using hne)
  · simp at ho
    by_cases hc : c = WriteOutcome.ok
    · rcases ho with ho | ho
      · exact absurd (ho.trans hc) hne
      · subst ho
        exact Or.inr ⟨by simpa using hc, by simpa using hne⟩
    · exact Or.inl (by simpa using hc)

/-- What stop-by-id on a running child nobody waits for leaves behind. -/
theorem stopProcessId_child_outcome (pid : Int) (w5 : World)
    (hpos : 0 < pid) (h63 : pid < 2 ^ 63) (hlive : pid ∈ w5.live)
    (hchild : pid ∈ w5.unreaped) :
    (stopProcessId (formatInt pid) w5).2.signals = w5.signals ++ [(pid, 0), (pid, 9)] ∧
    (pid ∉ w5.unkillable →
      pid ∉ (stopProcessId (formatInt pid) w5).2.live ∧
      pid ∈ (stopProcessId (formatInt pid) w5).2.zombies ∧
      (signalZero pid (stopProcessId (formatInt pid) w5).2).1 = true) ∧
    (pid ∈ w5.unkillable → pid ∈ (stopProcessId (formatInt pid) w5).2.live) := by
  have h0 : pid ≠ 0 := by omega
  have h1 : pid ≠ -1 := by omega
  rw [stopProcessId_formatInt_running pid w5 hpos h63 hlive]
  by_cases hk : pid ∈ w5.unkillable
  · simp only [hk, if_true, not_true_eq_false, false_implies, true_implies, true_and]
    exact hlive
  · simp only [hk, if_false, not_false_eq_true, true_implies, false_implies, and_true,
      true_and, hchild, signalZero]
    refine ⟨?_, ?_, ?_⟩
    · simp
    · exact List.mem_cons_self _ _
    · simp [h0, h1]

/-- C8, as stated, fails in two ways.  In `killRefused` the launch yields
process 4242, the write of the Registry fails, `startProcess` returns the
persistence error, and process 4242 still runs when the call returns: the kill
was refused and that failure is discarded.  In `registryWriteFails` the kill is
delivered and process 4242 no longer runs, but nobody waits for it: it is
still in the process table and answers the liveness probe. -/
theorem startProcess_orphan_counterexample :
    (killRefused.starts.head? = some (some 4242) ∧
      (startProcess web killRefused).1 = Except.error "failed to update process log." ∧
      (4242 : Int) ∈ (startProcess web killRefused).2.live) ∧
    (registryWriteFails.starts.head? = some (some 4242) ∧
      (startProcess web registryWriteFails).1
        = Except.error "failed to update process log." ∧
      (4242 : Int) ∉ (startProcess web registryWriteFails).2.live ∧
      (signalZero 4242 (startProcess web registryWriteFails).2).1 = true) :=
  ⟨⟨rfl, rfl, by decide⟩, rfl, rfl, by decide, by decide⟩

/-- C8, amended: when the process is launched as `pid` (a positive 64-bit id)
and the subsequent write of the Registry or of the RunningTable fails,
`startProcess` calls stop-by-id on the decimal text of `pid` in a world where
that process runs (the probe and then the kill are sent to `pid`) and returns
a persistence error.  When the kill is not refused the launched process no
longer runs when the call returns; it is not waited for, so it stays in the
process table and still answers the liveness probe.  When the kill is refused
the process still runs. -/
theorem startProcess_persistence_failure_kills (process : PMXProcess) (w : World)
    (running : PMXRunningProcessLog) (registry : PMXProcessLog) (pid : Int)
    (hrun : w.runningLog = Doc.holds running)
    (hreg : w.processLog = Doc.holds registry)
    (hloads : ∀ o ∈ w.writes.take 2, o = WriteOutcome.ok)
    (hopens : ∀ b ∈ w.opens.take 2, b = true)
    (hstart : w.starts.head? = some (some pid))
    (hpos : 0 < pid) (h63 : pid < 2 ^ 63)
    (hfail : ∃ o ∈ (w.writes.drop 2).take 2, o ≠ WriteOutcome.ok) :
    ((startProcess process w).1 = Except.error "failed to update process log." ∨
      (startProcess process w).1 = Except.error "failed to update running log.") ∧
    (∃ w5 : World, pid ∈ w5.live ∧
      (startProcess process w).2 = (stopProcessId (formatInt pid) w5).2 ∧
      (startProcess process w).2.signals = w5.signals ++ [(pid, 0), (pid, 9)]) ∧
    (pid ∉ w.unkillable →
      pid ∉ (startProcess process w).2.live ∧
      pid ∈ (startProcess process w).2.zombies ∧
      (signalZero pid (startProcess process w).2).1 = true) ∧
    (pid ∈ w.unkillable → pid ∈ (startProcess process w).2.live) := by
  obtain ⟨l, z, s, h⟩ := startProcess_launched process w running registry pid hrun hreg hloads
    hopens hstart
  rw [h]
  rcases third_or_fourth_fails hfail with h3 | ⟨h3, h4⟩
  · obtain ⟨e, w5, hw5, hlive, hzom, hunr, hunk⟩ := writeJson_registry_fail
      (registry.insert process.Name (loadProcessLogFiles process))
      { w with
        live := pid :: l, zombies := z, unreaped := pid :: w.unreaped, signals := s,
        writes := w.writes.tail.tail,
        opens := w.opens.tail.tail, starts := w.starts.tail } h3
    rw [hw5]
    have hl5 : pid ∈ w5.live := by rw [hlive]; exact List.mem_cons_self _ _
    have hc5 : pid ∈ w5.unreaped := by rw [hunr]; exact List.mem_cons_self _ _
    obtain ⟨hsig, hyes, hno⟩ := stopProcessId_child_outcome pid w5 hpos h63 hl5 hc5
    rw [hunk] at hyes hno
    exact ⟨Or.inl rfl, ⟨w5, hl5, rfl, hsig⟩, hyes, hno⟩
  · rw [writeJson_ok _ _ _ h3]
    simp only [PROCESS_LOG_FILEPATH]
    obtain ⟨e, w6, hw6, hlive, hzom, hunr, hunk⟩ := writeJson_running_fail
      (running.insert process.Name (formatInt pid))
      { w with
        processLog := Doc.holds (registry.insert process.Name (loadProcessLogFiles process)),
        live := pid :: l, zombies := z, unreaped := pid :: w.unreaped, signals := s,
        writes := w.writes.tail.tail.tail,
        opens := w.opens.tail.tail, starts := w.starts.tail } h4
    rw [hw6]
    have hl6 : pid ∈ w6.live := by rw [hlive]; exact List.mem_cons_self _ _
    have hc6 : pid ∈ w6.unreaped := by rw [hunr]; exact List.mem_cons_self _ _
    obtain ⟨hsig, hyes, hno⟩ := stopProcessId_child_outcome pid w6 hpos h63 hl6 hc6
    rw [hunk] at hyes hno
    exact ⟨Or.inr rfl, ⟨w6, hl6, rfl, hsig⟩, hyes, hno⟩

/-- Witness of C8, amended: the first start of `web` when the write of the
Registry fails and the kill is delivered. -/
theorem startProcess_persistence_failure_kills_witness :
    ((startProcess web registryWriteFails).1
        = Except.error "failed to update process log." ∨
      (startProcess web registryWriteFails).1
        = Except.error "failed to update running log.") ∧
    (∃ w5 : World, (4242 : Int) ∈ w5.live ∧
      (startProcess web registryWriteFails).2 = (stopProcessId (formatInt 4242) w5).2 ∧
      (startProcess web registryWriteFails).2.signals = w5.signals ++ [(4242, 0), (4242, 9)]) ∧
    ((4242 : Int) ∉ registryWriteFails.unkillable →
      (4242 : Int) ∉ (startProcess web registryWriteFails).2.live ∧
      (4242 : Int) ∈ (startProcess web registryWriteFails).2.zombies ∧
      (signalZero 4242 (startProcess web registryWriteFails).2).1 = true) ∧
    ((4242 : Int) ∈ registryWriteFails.unkillable →
      (4242 : Int) ∈ (startProcess web registryWriteFails).2.live) :=
  startProcess_persistence_failure_kills web registryWriteFails ∅ ∅ 4242 rfl rfl
    (by decide) (by decide) rfl (by decide) (by decide)
    ⟨WriteOutcome.openFails, by decide, by decide⟩

end PMX
